import Mathlib

/-!
Shallow embedding of the order/inventory core of the self_drawn repository
(src/ordering/models.py, src/ordering/views.py, src/ordering/serializers.py).

Machine state is a relational database value: lists of stores, products and
orders.  Django ORM operations are translated as follows:

* `Product.objects.filter(id=pid, is_active=True, stock__gte=qty)
     .update(stock=F("stock") - qty)`  becomes `condReserve` (a conditional
  decrement over the product table, returning the rows-affected count);
* `Product.objects.filter(id=pid).update(stock=F("stock") + qty)` becomes
  `releaseOne`;
* `Order.save()` (the overridden save hook in models.py) becomes
  `saveNewOrder` for unsaved instances (daily-serial assignment, total
  recomputation, completed-at stamping) and `resave` for persisted ones;
* `transaction.atomic()` blocks that raise become functions returning the
  original database next to the error (`createOrderRun`).

Timestamps are abstract naturals; `todayStart` stands for the start of the
current local calendar day computed by `timezone.localdate`.
-/

namespace SelfDrawn

/-- Order lifecycle states, from `Order.STATUS_CHOICES` in models.py. -/
inductive OrderStatus
  | pending
  | confirmed
  | preparing
  | completed
  | arrived
  | final
  | cancelled
  | archived
deriving DecidableEq

/-- Product category (models.py `Category`): only the fields the order core
reads (slug and display name). -/
structure Category where
  slug : String
  name : String
deriving DecidableEq

/-- models.py `Product`.  `stock` is a Django `IntegerField`, hence `Int`. -/
structure Product where
  id : Nat
  storeId : Nat
  name : String
  price : Nat
  stock : Int
  isActive : Bool
  category : Option Category
deriving DecidableEq

/-- models.py `Store`: the fields the order core reads. -/
structure Store where
  id : Nat
  slug : String
  isActive : Bool
deriving DecidableEq

/-- One entry of the `Order.items` JSON snapshot, as produced by
`OrderViewSet.create` (views.py): the request item keeps its product id and
coerced quantity and gains name/price/category copied from the live product. -/
structure LineItem where
  id : Nat
  quantity : Int
  name : String
  price : Nat
  category : String
  categoryName : String
deriving DecidableEq

/-- models.py `Order`. -/
structure Order where
  pk : Nat
  storeId : Nat
  phoneTail : String
  paymentMethod : String
  items : List LineItem
  subtotal : Int
  total : Int
  dailySerial : Nat
  linepayTransactionId : Option String
  linepayRefunded : Bool
  linepayRefundTransactionId : Option String
  status : OrderStatus
  createdAt : Nat
  completedAt : Option Nat
deriving DecidableEq

/-- The relational store. -/
structure DB where
  stores : List Store
  products : List Product
  orders : List Order
deriving DecidableEq

/-! ## Stock ledger primitives (views.py) -/

/-- Models `Product.objects.filter(id=pid, is_active=True, stock__gte=qty)
.update(stock=F("stock") - qty)` from `OrderViewSet.create`: decrement every
matching row, return the new table and the number of rows affected. -/
def condReserve (ps : List Product) (pid : Nat) (qty : Int) :
    List Product × Nat :=
  (ps.map (fun p =>
      if p.id = pid ∧ p.isActive = true ∧ qty ≤ p.stock then
        { p with stock := p.stock - qty }
      else p),
   (ps.filter (fun p =>
      decide (p.id = pid ∧ p.isActive = true ∧ qty ≤ p.stock))).length)

/-- Models `Product.objects.filter(id=pid).update(stock=F("stock") + qty)`:
unconditional atomic increment of every row with the given id. -/
def releaseOne (ps : List Product) (pid : Nat) (qty : Int) : List Product :=
  ps.map (fun p => if p.id = pid then { p with stock := p.stock + qty } else p)

/-- Apply a batch of per-product increments in sequence. -/
def releaseList (ps : List Product) (ups : List (Nat × Int)) : List Product :=
  ups.foldl (fun acc u => releaseOne acc u.1 u.2) ps

/-- Models `OrderViewSet._restore_stock` (views.py): the per-item increments it
issues — items whose id is truthy and whose quantity is positive. -/
def restorePairs (items : List LineItem) : List (Nat × Int) :=
  (items.filter (fun li => decide (li.id ≠ 0 ∧ 0 < li.quantity))).map
    (fun li => (li.id, li.quantity))

/-- Models `OrderViewSet._restore_stock`: release each line item's quantity back to
its product. -/
def restoreStock (ps : List Product) (items : List LineItem) : List Product :=
  releaseList ps (restorePairs items)

/-- Total quantity an item list holds against one product id (counting only
entries `_restore_stock` would release). -/
def itemsTotal : List LineItem → Nat → Int
  | [], _ => 0
  | li :: rest, pid =>
    (if li.id = pid ∧ li.id ≠ 0 ∧ 0 < li.quantity then li.quantity else 0) +
      itemsTotal rest pid

/-- Sum of the increments a batch holds for one product id. -/
def sumFor (ups : List (Nat × Int)) (pid : Nat) : Int :=
  ((ups.filter (fun u => decide (u.1 = pid))).map (fun u => u.2)).sum

/-! ## Order.save (models.py) -/

/-- One line's contribution to the total: `price * quantity`. -/
def itemLineTotal (li : LineItem) : Int :=
  (li.price : Int) * li.quantity

/-- Models `Order.update_total_from_json` (models.py): recompute the total from the
items snapshot. -/
def computeTotal (items : List LineItem) : Int :=
  (items.map itemLineTotal).sum

/-- The daily serials of the given store's orders created since the start of
the local day (the queryset `Order.objects.filter(store=self.store,
created_at__gte=today_start)` of `Order.save`). -/
def todaySerials (orders : List Order) (storeId todayStart : Nat) : List Nat :=
  (orders.filter (fun o =>
      decide (o.storeId = storeId ∧ todayStart ≤ o.createdAt))).map
    (fun o => o.dailySerial)

/-- Models the `Order.save` serial assignment: `Max("daily_serial") + 1`, or 1 when the
aggregate is None. -/
def nextSerial (orders : List Order) (storeId todayStart : Nat) : Nat :=
  match (todaySerials orders storeId todayStart).max? with
  | some m => m + 1
  | none => 1

/-- Auto-increment primary key for a new row. -/
def freshPk (orders : List Order) : Nat :=
  (orders.map (fun o => o.pk)).foldl max 0 + 1

/-- Models `Order.save` on an already-persisted instance (`self.pk` set): recompute
totals from items and stamp `completed_at` when the status is completed or
final and no stamp exists.  The daily serial branch is skipped. -/
def resave (o : Order) (now : Nat) : Order :=
  { o with
    subtotal := computeTotal o.items,
    total := computeTotal o.items,
    completedAt :=
      if (o.status = .completed ∨ o.status = .final) ∧ o.completedAt = none
      then some now else o.completedAt }

/-- Models `Order.save` on a fresh instance: assign the pk, compute totals, assign
the daily serial from today's maximum, stamp `completed_at` if needed, and
append the row. -/
def saveNewOrder (db : DB) (storeId : Nat) (phoneTail paymentMethod : String)
    (items : List LineItem) (st : OrderStatus) (now todayStart : Nat) :
    DB × Order :=
  let t := computeTotal items
  let o : Order :=
    { pk := freshPk db.orders
      storeId := storeId
      phoneTail := phoneTail
      paymentMethod := paymentMethod
      items := items
      subtotal := t
      total := t
      dailySerial := nextSerial db.orders storeId todayStart
      linepayTransactionId := none
      linepayRefunded := false
      linepayRefundTransactionId := none
      status := st
      createdAt := now
      completedAt := if st = .completed ∨ st = .final then some now else none }
  ({ db with orders := db.orders ++ [o] }, o)

/-- Models `Order.objects.get(id=...)` followed by a row update by primary key. -/
def putOrder (orders : List Order) (o : Order) : List Order :=
  orders.map (fun x => if x.pk = o.pk then o else x)

/-- Models `Product.objects.filter(id=pid).first()` and `.get(id=pid)`. -/
def findProduct (ps : List Product) (pid : Nat) : Option Product :=
  ps.find? (fun p => decide (p.id = pid))

/-- Models `get_object_or_404(Store, slug=...)` (no is-active filter). -/
def findStore (ss : List Store) (slug : String) : Option Store :=
  ss.find? (fun s => decide (s.slug = slug))

/-- Models `Order.objects.get(id=oid)` (used with `select_for_update`, which only
affects locking). -/
def findOrder (orders : List Order) (oid : Nat) : Option Order :=
  orders.find? (fun o => decide (o.pk = oid))

/-! ## Order creation (OrderViewSet.create, views.py) -/

/-- The JSON value found under the `quantity` key of a request item, as seen
by `int(item.get("quantity") or 0)`: absent-or-falsy values coerce to 0,
numeric values to their integer value, and values on which `int` raises are
turned into 0 by the bare `except` clause. -/
inductive QtyVal
  | absent
  | num (n : Int)
  | bad
deriving DecidableEq

/-- The coercion `int(item.get("quantity") or 0)` wrapped in try/except. -/
def coerceQty : QtyVal → Int
  | .absent => 0
  | .num n => n
  | .bad => 0

/-- A line item of the creation request body. -/
structure ReqItem where
  id : Option Nat
  quantity : QtyVal
deriving DecidableEq

/-- Typed errors of `OrderViewSet.create`; every one is surfaced as an HTTP
400 response carrying the raised message, except the store lookup which is a
404 raised before the transaction opens. -/
inductive CreateError
  | storeNotFound
  | insufficientStock (name : String) (remaining : Int)
  | productGone
  | malformedItems
  | invalidOrderData
  | linePayError
deriving DecidableEq

/-- Snapshot construction inside the creation loop: request id and coerced
quantity are kept, name/price/category are copied from the live product
(category falling back to other / 其他). -/
def snapshotItem (p : Product) (qty : Int) : LineItem :=
  { id := p.id
    quantity := qty
    name := p.name
    price := p.price
    category := match p.category with | some c => c.slug | none => "other"
    categoryName := match p.category with | some c => c.name | none => "其他" }

/-- The reservation loop of `OrderViewSet.create`: skip non-positive
quantities, conditionally decrement stock, raise on zero rows affected
(reporting the re-fetched product's name and current stock, or a
product-gone error), and snapshot the post-decrement product. -/
def reserveItems : List Product → List ReqItem →
    Except CreateError (List Product × List LineItem)
  | ps, [] => .ok (ps, [])
  | ps, r :: rest =>
    let qty := coerceQty r.quantity
    if qty ≤ 0 then reserveItems ps rest
    else
      match r.id with
      | none => .error .productGone
      | some pid =>
        let step := condReserve ps pid qty
        if step.2 = 0 then
          match findProduct ps pid with
          | some p => .error (.insufficientStock p.name p.stock)
          | none => .error .productGone
        else
          match findProduct step.1 pid with
          | none => .error .productGone
          | some p =>
            match reserveItems step.1 rest with
            | .error e => .error e
            | .ok (psf, snaps) => .ok (psf, snapshotItem p qty :: snaps)

/-- The creation request body.  `items = none` models a value under the
`items` key that is not a list (iterating it raises, which the bare except
turns into a 400 response). -/
structure CreateRequest where
  storeSlug : String
  items : Option (List ReqItem)
  phoneTail : String
  paymentMethod : String
deriving DecidableEq

/-- Models `OrderSerializer.is_valid` on the data the view assembles: phone tail
present, within the model's max length, and a known payment method (the
items value the view passes is always a list, and status is fixed to
pending). -/
def validOrderData (phoneTail paymentMethod : String) : Bool :=
  decide (phoneTail ≠ "") && decide (phoneTail.length ≤ 10) &&
    (decide (paymentMethod = "cash") || decide (paymentMethod = "linepay"))

/-- The body of `OrderViewSet.create`'s atomic block, threading the product
table through the reservation loop and persisting the order; `gatewayOk`
is the LINE Pay request-payment outcome (`returnCode == "0000"`). -/
def createOrder (db : DB) (req : CreateRequest) (now todayStart : Nat)
    (gatewayOk : Bool) : Except CreateError (DB × Order) :=
  match findStore db.stores req.storeSlug with
  | none => .error .storeNotFound
  | some store =>
    match req.items with
    | none => .error .malformedItems
    | some reqItems =>
      match reserveItems db.products reqItems with
      | .error e => .error e
      | .ok (ps, snaps) =>
        if validOrderData req.phoneTail req.paymentMethod = true then
          let r := saveNewOrder { db with products := ps } store.id
            req.phoneTail req.paymentMethod snaps .pending now todayStart
          if req.paymentMethod = "linepay" then
            if gatewayOk then .ok r else .error .linePayError
          else .ok r
        else .error .invalidOrderData

/-- Models `OrderViewSet.create` as observed by the caller: the `transaction.atomic`
block rolls the database back to its argument whenever the body raises. -/
def createOrderRun (db : DB) (req : CreateRequest) (now todayStart : Nat)
    (gatewayOk : Bool) : DB × Except CreateError Order :=
  match createOrder db req now todayStart gatewayOk with
  | .ok (db2, o) => (db2, .ok o)
  | .error e => (db, .error e)

/-- Product ids of the request entries that survive the quantity filter (the
entries that actually attempt a reservation). -/
def reqIds (rs : List ReqItem) : List Nat :=
  rs.filterMap (fun r => if 0 < coerceQty r.quantity then r.id else none)

/-- As `reqIds`, lifted to the optional items value of a request. -/
def reqIdsOpt : Option (List ReqItem) → List Nat
  | none => []
  | some rs => reqIds rs

/-! ## Retrieve and customer update (OrderViewSet, views.py) -/

/-- Predicate `isInflight` lists the statuses `active_statuses` of
`OrderViewSet.get_queryset` — the same five the daily reset cancels. -/
def isInflight (s : OrderStatus) : Bool :=
  decide (s = .pending) || decide (s = .confirmed) || decide (s = .preparing)
    || decide (s = .completed) || decide (s = .arrived)

/-- Models `OrderViewSet.get_queryset` without a store parameter: created today or
still in an active status, and never archived. -/
def visibleToday (o : Order) (todayStart : Nat) : Bool :=
  (decide (todayStart ≤ o.createdAt) || isInflight o.status) &&
    !(decide (o.status = .archived))

/-- Models `self.get_object()`: primary-key lookup inside the filtered queryset. -/
def findVisibleOrder (db : DB) (oid : Nat) (todayStart : Nat) : Option Order :=
  (db.orders.filter (fun o => visibleToday o todayStart)).find?
    (fun o => decide (o.pk = oid))

inductive RetrieveResult
  | ok (o : Order)
  | forbidden
  | notFound
deriving DecidableEq

/-- Models `OrderViewSet.retrieve`: the 403 fires only when a phone-tail query
parameter is supplied, is truthy (non-empty), and differs from the order's. -/
def retrieveView (db : DB) (oid : Nat) (phoneTailParam : Option String)
    (todayStart : Nat) : RetrieveResult :=
  match findVisibleOrder db oid todayStart with
  | none => .notFound
  | some o =>
    match phoneTailParam with
    | none => .ok o
    | some t => if t ≠ "" ∧ t ≠ o.phoneTail then .forbidden else .ok o

/-- A validated PATCH body for the default ModelViewSet update path: each
field present is a serializer-valid value for that writable field. -/
structure UpdatePayload where
  phoneTail : Option String
  items : Option (List LineItem)
  status : Option OrderStatus
  paymentMethod : Option String
deriving DecidableEq

/-- The default `ModelViewSet.partial_update`: write every supplied writable
field onto the instance, then run the model save hook. -/
def drfPatch (o : Order) (u : UpdatePayload) (now : Nat) : Order :=
  resave
    { o with
      phoneTail := u.phoneTail.getD o.phoneTail
      items := u.items.getD o.items
      status := u.status.getD o.status
      paymentMethod := u.paymentMethod.getD o.paymentMethod }
    now

/-- Models `OrderViewSet.partial_update` for an unauthenticated request: the staff
items-edit branch requires `request.user.is_authenticated`, so control always
falls through to the default partial update, whatever the body holds.
Returns the database and whether the request was accepted. -/
def customerPatch (db : DB) (oid : Nat) (u : UpdatePayload)
    (now todayStart : Nat) : DB × Bool :=
  match findVisibleOrder db oid todayStart with
  | none => (db, false)
  | some o => ({ db with orders := putOrder db.orders (drfPatch o u now) }, true)

/-! ## Cancel (OrderViewSet.cancel, views.py) -/

inductive CancelResult
  | success (alreadyCancelled : Bool)
  | notFound
deriving DecidableEq

/-- Models `OrderViewSet.cancel`: double-checked status guard, stock restore, status
write, save. -/
def cancelView (db : DB) (oid : Nat) (now : Nat) : DB × CancelResult :=
  match findOrder db.orders oid with
  | none => (db, .notFound)
  | some o =>
    if o.status = .cancelled ∨ o.status = .archived then (db, .success true)
    else
      ({ db with
          products := restoreStock db.products o.items
          orders := putOrder db.orders (resave { o with status := .cancelled } now) },
       .success false)

/-! ## LINE Pay confirm callback (OrderViewSet.line_confirm, views.py) -/

inductive ConfirmOutcome
  | successRedirect
  | missingTransaction
  | paymentFailed
  | serverError
deriving DecidableEq

/-- Models `OrderViewSet.line_confirm`.  `txId = none` models a missing (or empty,
hence falsy) transactionId query parameter; `providerOk` is the confirm API
outcome.  The third component counts calls to the provider's confirm
endpoint. -/
def lineConfirmView (db : DB) (oid : Nat) (txId : Option String)
    (providerOk : Bool) (now : Nat) : DB × ConfirmOutcome × Nat :=
  match findOrder db.orders oid with
  | none => (db, .serverError, 0)
  | some o =>
    if o.status = .confirmed then (db, .successRedirect, 0)
    else
      match txId with
      | none => (db, .missingTransaction, 0)
      | some tx =>
        if providerOk then
          ({ db with
              orders := putOrder db.orders
                (resave
                  { o with
                    status := .confirmed
                    paymentMethod := "linepay"
                    linepayTransactionId := some tx } now) },
           .successRedirect, 1)
        else
          ({ db with
              products := restoreStock db.products o.items
              orders := putOrder db.orders (resave { o with status := .cancelled } now) },
           .paymentFailed, 1)

/-! ## Daily reset (reset_daily_orders, views.py) -/

/-- Accumulate one product increment into the `restore_updates` dict. -/
def addUpdate : List (Nat × Int) → Nat → Int → List (Nat × Int)
  | [], pid, q => [(pid, q)]
  | (k, v) :: rest, pid, q =>
    if k = pid then (k, v + q) :: rest else (k, v) :: addUpdate rest pid q

/-- Fold one order's items into the restore dict (entries with truthy id and
positive quantity). -/
def collectOrderItems (m : List (Nat × Int)) (items : List LineItem) :
    List (Nat × Int) :=
  items.foldl
    (fun acc li =>
      if li.id ≠ 0 ∧ 0 < li.quantity then addUpdate acc li.id li.quantity
      else acc)
    m

/-- The coalesced `restore_updates` dict over all affected orders. -/
def collectUpdates (orders : List Order) : List (Nat × Int) :=
  orders.foldl (fun m o => collectOrderItems m o.items) []

/-- Total reserved quantity of one product across a set of orders. -/
def ordersTotal (orders : List Order) (pid : Nat) : Int :=
  (orders.map (fun o => itemsTotal o.items pid)).sum

/-- The queryset of orders the daily reset cancels: the store's orders in an
in-flight status. -/
def inflightOf (db : DB) (storeId : Nat) : List Order :=
  db.orders.filter (fun o => decide (o.storeId = storeId) && isInflight o.status)

/-- Models `reset_daily_orders` (views.py): cancel every in-flight order of the
store (saving each), apply the coalesced per-product stock increments, then
archive every final order of the store with a bare `update` (no save hook). -/
def resetDailyView (db : DB) (storeId : Nat) (now : Nat) : DB :=
  let affected := inflightOf db storeId
  let m := collectUpdates affected
  let orders1 := db.orders.map
    (fun o =>
      if o.storeId = storeId ∧ isInflight o.status = true then
        resave { o with status := .cancelled } now
      else o)
  let orders2 := orders1.map
    (fun o =>
      if o.storeId = storeId ∧ o.status = .final then
        { o with status := .archived }
      else o)
  { db with products := releaseList db.products m, orders := orders2 }

/-! ## Sequential creation (for the daily-serial claims) -/

/-- The data of one order to persist. -/
structure NewOrderData where
  phoneTail : String
  paymentMethod : String
  items : List LineItem
  createdAt : Nat
deriving DecidableEq

/-- Persist a batch of fresh orders for one store, one after the other. -/
def saveMany (db : DB) (storeId todayStart : Nat) :
    List NewOrderData → DB
  | [] => db
  | d :: rest =>
    saveMany
      (saveNewOrder db storeId d.phoneTail d.paymentMethod d.items .pending
        d.createdAt todayStart).1
      storeId todayStart rest

/-! ## Refund (spec §4.4) -/

inductive RefundResult
  | ok
  | invalid
  | providerError
deriving DecidableEq

/-- Modelled from the spec: the repository's src holds only the raw LINE Pay
refund API wrapper (`LinePayHandler.refund_payment`, views.py) and the
persisted fields `linepay_refunded` / `linepay_refund_transaction_id`
(models.py); the orchestrating `refund(order)` operation of spec §4.4 is not
present under src.  Following the spec's words: only valid for gateway
payments with a transaction id; skip the provider call when already
refunded; on provider success record the refund transaction id and set the
refunded flag.  The third component counts provider refund calls. -/
def refundOrder (o : Order) (providerOk : Bool) (refundTx : String) :
    Order × RefundResult × Nat :=
  if o.paymentMethod = "linepay" ∧ o.linepayTransactionId ≠ none then
    if o.linepayRefunded = true then (o, .ok, 0)
    else if providerOk then
      ({ o with
          linepayRefunded := true
          linepayRefundTransactionId := some refundTx },
       .ok, 1)
    else (o, .providerError, 1)
  else (o, .invalid, 0)

/-! ## Concrete instances used to exercise the model -/

/-- A sample category. -/
def exCat : Category := { slug := "drink", name := "飲品" }

/-- A sample product of store 1 with the given stock. -/
def exProd (stock : Int) : Product :=
  { id := 1, storeId := 1, name := "紅茶", price := 30, stock := stock,
    isActive := true, category := some exCat }

/-- A product owned by store 2. -/
def exProdB : Product :=
  { id := 9, storeId := 2, name := "芋圓", price := 50, stock := 3,
    isActive := true, category := none }

def exStore : Store := { id := 1, slug := "main", isActive := true }

def exStore2 : Store := { id := 2, slug := "branch", isActive := true }

/-- A snapshot line item for two units of the sample product. -/
def exItem : LineItem :=
  { id := 1, quantity := 2, name := "紅茶", price := 30, category := "drink",
    categoryName := "飲品" }

/-- A sample persisted order in the given status. -/
def exOrder (st : OrderStatus) : Order :=
  { pk := 7, storeId := 1, phoneTail := "1234", paymentMethod := "cash",
    items := [exItem], subtotal := 60, total := 60, dailySerial := 1,
    linepayTransactionId := none, linepayRefunded := false,
    linepayRefundTransactionId := none, status := st, createdAt := 5,
    completedAt := none }

/-- A sample LINE Pay order awaiting refund. -/
def exOrderPay : Order :=
  { exOrder .final with
    paymentMethod := "linepay"
    linepayTransactionId := some ("TX100") }

/-- Database with one store, one product in stock 4, and no orders. -/
def exDBe : DB := { stores := [exStore], products := [exProd 4], orders := [] }

/-- Database holding one pending order for the sample product. -/
def exDB3 : DB :=
  { stores := [exStore], products := [exProd 4], orders := [exOrder .pending] }

/-- Two stores, each with its own product. -/
def exDB10 : DB :=
  { stores := [exStore, exStore2], products := [exProd 4, exProdB],
    orders := [] }

/-- A creation request that lists the same product twice. -/
def exReq2 : CreateRequest :=
  { storeSlug := "main",
    items := some [{ id := some 1, quantity := .num 2 },
      { id := some 1, quantity := .num 3 }],
    phoneTail := "1234", paymentMethod := "cash" }

/-- A creation request asking for more than the available stock. -/
def exReq2w : CreateRequest :=
  { storeSlug := "main",
    items := some [{ id := some 1, quantity := .num 99 }],
    phoneTail := "1234", paymentMethod := "cash" }

/-- A creation request whose items list is empty. -/
def exReq9 : CreateRequest :=
  { storeSlug := "main", items := some [], phoneTail := "1234",
    paymentMethod := "cash" }

/-- An unauthenticated PATCH body that only changes the status. -/
def exPatch3 : UpdatePayload :=
  { phoneTail := none, items := none, status := some .confirmed,
    paymentMethod := none }

/-- Creation data for the serial-number scenario. -/
def exNOD (c : Nat) : NewOrderData :=
  { phoneTail := "1234", paymentMethod := "cash", items := [exItem],
    createdAt := c }

/-! # Lemmas -/

/-- Writing a product's stock field back to itself is the identity. -/
theorem stock_set_self (p : Product) : { p with stock := p.stock } = p := rfl

theorem sumFor_nil (pid : Nat) : sumFor [] pid = 0 := rfl

theorem sumFor_cons (k : Nat) (q : Int) (ups : List (Nat × Int)) (pid : Nat) :
    sumFor ((k, q) :: ups) pid =
      (if k = pid then q else 0) + sumFor ups pid := by
  by_cases h : k = pid <;> simp [sumFor, List.filter_cons, h]

/-- A sequence of unconditional per-product increments acts on every row of
the product table as one addition of the accumulated total for its id. -/
theorem releaseList_eq_map (ups : List (Nat × Int)) (ps : List Product) :
    releaseList ps ups =
      ps.map (fun p => { p with stock := p.stock + sumFor ups p.id }) := by
  induction ups generalizing ps with
  | nil =>
    simp [releaseList, sumFor, stock_set_self]
  | cons u rest ih =>
    obtain ⟨k, q⟩ := u
    have step : releaseList ps ((k, q) :: rest) =
        releaseList (releaseOne ps k q) rest := rfl
    rw [step, ih (releaseOne ps k q), releaseOne, List.map_map]
    refine List.map_congr_left (fun p _ => ?_)
    simp only [Function.comp_apply]
    by_cases h : p.id = k
    · rw [if_pos h, sumFor_cons, if_pos h.symm]
      show ({ p with stock := p.stock + q + sumFor rest p.id } : Product) =
        { p with stock := p.stock + (q + sumFor rest p.id) }
      rw [add_assoc]
    · rw [if_neg h, sumFor_cons, if_neg (fun hk => h hk.symm), zero_add]

theorem restorePairs_cons (li : LineItem) (rest : List LineItem) :
    restorePairs (li :: rest) =
      if li.id ≠ 0 ∧ 0 < li.quantity then
        (li.id, li.quantity) :: restorePairs rest
      else restorePairs rest := by
  by_cases h : li.id ≠ 0 ∧ 0 < li.quantity <;>
    simp [restorePairs, List.filter_cons, h]

theorem itemsTotal_nil (pid : Nat) : itemsTotal [] pid = 0 := rfl

theorem itemsTotal_cons (li : LineItem) (rest : List LineItem) (pid : Nat) :
    itemsTotal (li :: rest) pid =
      (if li.id = pid ∧ li.id ≠ 0 ∧ 0 < li.quantity then li.quantity else 0) +
        itemsTotal rest pid := rfl

theorem sumFor_restorePairs (items : List LineItem) (pid : Nat) :
    sumFor (restorePairs items) pid = itemsTotal items pid := by
  induction items with
  | nil => rfl
  | cons li rest ih =>
    rw [restorePairs_cons, itemsTotal_cons]
    by_cases h : li.id ≠ 0 ∧ 0 < li.quantity
    · rw [if_pos h, sumFor_cons, ih]
      by_cases h2 : li.id = pid
      · rw [if_pos h2, if_pos ⟨h2, h⟩]
      · rw [if_neg h2, if_neg (fun hc => h2 hc.1)]
    · rw [if_neg h, ih, if_neg (fun hc => h hc.2), zero_add]

/-- Lemma: `_restore_stock` adds back, to every product, exactly the total quantity
the order's items hold against that product id. -/
theorem restoreStock_eq_map (ps : List Product) (items : List LineItem) :
    restoreStock ps items =
      ps.map (fun p => { p with stock := p.stock + itemsTotal items p.id }) := by
  rw [restoreStock, releaseList_eq_map]
  exact List.map_congr_left (fun p _ => by rw [sumFor_restorePairs])

theorem sumFor_addUpdate (m : List (Nat × Int)) (k : Nat) (q : Int) (pid : Nat) :
    sumFor (addUpdate m k q) pid =
      sumFor m pid + (if k = pid then q else 0) := by
  induction m with
  | nil =>
    by_cases h : k = pid <;> simp [addUpdate, sumFor_cons, sumFor_nil, h]
  | cons u rest ih =>
    obtain ⟨k0, v⟩ := u
    by_cases h0 : k0 = k
    · subst h0
      rw [show addUpdate ((k0, v) :: rest) k0 q = (k0, v + q) :: rest from
        by simp [addUpdate]]
      rw [sumFor_cons, sumFor_cons]
      by_cases h : k0 = pid
      · rw [if_pos h, if_pos h, if_pos h]
        omega
      · rw [if_neg h, if_neg h, if_neg h]
        omega
    · rw [show addUpdate ((k0, v) :: rest) k q = (k0, v) :: addUpdate rest k q
        from by simp [addUpdate, h0]]
      rw [sumFor_cons, sumFor_cons, ih]
      omega

theorem sumFor_collectOrderItems (items : List LineItem)
    (m : List (Nat × Int)) (pid : Nat) :
    sumFor (collectOrderItems m items) pid =
      sumFor m pid + itemsTotal items pid := by
  induction items generalizing m with
  | nil => simp [collectOrderItems, itemsTotal_nil]
  | cons li rest ih =>
    have step : collectOrderItems m (li :: rest) =
        collectOrderItems
          (if li.id ≠ 0 ∧ 0 < li.quantity then addUpdate m li.id li.quantity
           else m) rest := rfl
    rw [step, itemsTotal_cons]
    by_cases h : li.id ≠ 0 ∧ 0 < li.quantity
    · rw [if_pos h, ih, sumFor_addUpdate]
      by_cases h2 : li.id = pid
      · rw [if_pos h2, if_pos ⟨h2, h⟩]
        omega
      · rw [if_neg h2, if_neg (fun hc => h2 hc.1)]
        omega
    · rw [if_neg h, ih, if_neg (fun hc => h hc.2)]
      omega

theorem sumFor_collect_aux (orders : List Order) (m : List (Nat × Int))
    (pid : Nat) :
    sumFor (orders.foldl (fun acc o => collectOrderItems acc o.items) m) pid =
      sumFor m pid + ordersTotal orders pid := by
  induction orders generalizing m with
  | nil => simp [ordersTotal]
  | cons o rest ih =>
    simp only [List.foldl_cons, ih, sumFor_collectOrderItems, ordersTotal,
      List.map_cons, List.sum_cons]
    omega

/-- The coalesced restore dict of the daily reset holds, for each product id,
the total quantity reserved across all affected orders. -/
theorem sumFor_collectUpdates (orders : List Order) (pid : Nat) :
    sumFor (collectUpdates orders) pid = ordersTotal orders pid := by
  have h := sumFor_collect_aux orders [] pid
  simpa [collectUpdates, sumFor_nil] using h

/-! ## Lemmas about the conditional decrement and row lookups -/

theorem resave_status (o : Order) (now : Nat) : (resave o now).status = o.status :=
  rfl

theorem resave_storeId (o : Order) (now : Nat) :
    (resave o now).storeId = o.storeId := rfl

theorem resave_items (o : Order) (now : Nat) : (resave o now).items = o.items :=
  rfl

theorem resave_pk (o : Order) (now : Nat) : (resave o now).pk = o.pk := rfl

theorem resave_dailySerial (o : Order) (now : Nat) :
    (resave o now).dailySerial = o.dailySerial := rfl

theorem condReserve_fst (ps : List Product) (pid : Nat) (q : Int) :
    (condReserve ps pid q).1 =
      ps.map (fun p =>
        if p.id = pid ∧ p.isActive = true ∧ q ≤ p.stock then
          { p with stock := p.stock - q }
        else p) := rfl

theorem condReserve_snd (ps : List Product) (pid : Nat) (q : Int) :
    (condReserve ps pid q).2 =
      (ps.filter (fun p =>
        decide (p.id = pid ∧ p.isActive = true ∧ q ≤ p.stock))).length := rfl

/-- Replacing the found row: after `putOrder`, the lookup returns the new
version. -/
theorem findOrder_putOrder (orders : List Order) (k : Nat) (o o2 : Order)
    (h : findOrder orders k = some o) (h2 : o2.pk = k) :
    findOrder (putOrder orders o2) k = some o2 := by
  induction orders with
  | nil => simp [findOrder] at h
  | cons a rest ih =>
    rw [putOrder, List.map_cons]
    by_cases ha : a.pk = k
    · rw [if_pos (by rw [ha, h2])]
      simp only [findOrder]
      exact List.find?_cons_of_pos _ (by simp [h2])
    · rw [if_neg (fun hc : a.pk = o2.pk => ha (by rw [hc, h2]))]
      have hrec : findOrder rest k = some o := by
        have := h
        simp only [findOrder] at this
        rwa [List.find?_cons_of_neg _ (by simp [ha])] at this
      have hgoal := ih hrec
      simp only [findOrder, putOrder] at hgoal ⊢
      rwa [List.find?_cons_of_neg _ (by simp [ha])]

/-- The conditional decrement never touches rows whose id differs from the
requested one, so lookups of other ids are unchanged. -/
theorem findProduct_condReserve_ne (ps : List Product) (pid : Nat) (q : Int)
    (k : Nat) (h : k ≠ pid) :
    findProduct (condReserve ps pid q).1 k = findProduct ps k := by
  induction ps with
  | nil => rfl
  | cons a rest ih =>
    rw [condReserve_fst, List.map_cons]
    by_cases ha : a.id = k
    · have hcond : ¬(a.id = pid ∧ a.isActive = true ∧ q ≤ a.stock) :=
        fun hc => h (ha ▸ hc.1)
      rw [if_neg hcond]
      simp only [findProduct]
      rw [List.find?_cons_of_pos _ (by simp [ha]),
        List.find?_cons_of_pos _ (by simp [ha])]
    · by_cases hc : a.id = pid ∧ a.isActive = true ∧ q ≤ a.stock
      · rw [if_pos hc]
        simp only [findProduct]
        rw [List.find?_cons_of_neg _
            (by simp [show ({ a with stock := a.stock - q } : Product).id = a.id
              from rfl, ha]),
          List.find?_cons_of_neg _ (by simp [ha]), ← condReserve_fst]
        exact ih
      · rw [if_neg hc]
        simp only [findProduct]
        rw [List.find?_cons_of_neg _ (by simp [ha]),
          List.find?_cons_of_neg _ (by simp [ha]), ← condReserve_fst]
        exact ih

/-- When the first row with the requested id qualifies, the conditional
decrement leaves it looked up with its stock lowered by the quantity. -/
theorem findProduct_condReserve_self (ps : List Product) (pid : Nat) (q : Int)
    (p : Product) (h : findProduct ps pid = some p) (ha : p.isActive = true)
    (hs : q ≤ p.stock) :
    findProduct (condReserve ps pid q).1 pid =
      some { p with stock := p.stock - q } := by
  induction ps with
  | nil => simp [findProduct] at h
  | cons a rest ih =>
    rw [condReserve_fst, List.map_cons]
    by_cases hid : a.id = pid
    · have hap : a = p := by
        have := h
        simp only [findProduct] at this
        rw [List.find?_cons_of_pos _ (by simp [hid])] at this
        exact Option.some.inj this
      subst hap
      rw [if_pos ⟨hid, ha, hs⟩]
      simp only [findProduct]
      rw [List.find?_cons_of_pos _
        (by simp [show ({ a with stock := a.stock - q } : Product).id = a.id
          from rfl, hid])]
    · have hrec : findProduct rest pid = some p := by
        have := h
        simp only [findProduct] at this
        rwa [List.find?_cons_of_neg _ (by simp [hid])] at this
      rw [if_neg (fun hc => hid hc.1)]
      simp only [findProduct]
      rw [List.find?_cons_of_neg _ (by simp [hid]), ← condReserve_fst]
      exact ih hrec

/-- A qualifying row makes the rows-affected count positive. -/
theorem condReserve_rows_pos (ps : List Product) (pid : Nat) (q : Int)
    (p : Product) (h : findProduct ps pid = some p) (ha : p.isActive = true)
    (hs : q ≤ p.stock) : (condReserve ps pid q).2 ≠ 0 := by
  have hmem : p ∈ ps := List.mem_of_find?_eq_some h
  have hid : p.id = pid := by simpa using List.find?_some h
  have : p ∈ ps.filter (fun x =>
      decide (x.id = pid ∧ x.isActive = true ∧ q ≤ x.stock)) :=
    List.mem_filter.mpr ⟨hmem, by simp [hid, ha, hs]⟩
  intro h0
  rw [show (condReserve ps pid q).2 = (ps.filter (fun x =>
      decide (x.id = pid ∧ x.isActive = true ∧ q ≤ x.stock))).length from rfl]
    at h0
  rcases List.length_eq_zero.mp h0 with hnil
  rw [hnil] at this
  exact (List.not_mem_nil p) this

/-- If no row has the requested id the conditional decrement is a no-op with
zero rows affected. -/
theorem condReserve_not_mem (ps : List Product) (pid : Nat) (q : Int)
    (h : pid ∉ ps.map (fun p => p.id)) : condReserve ps pid q = (ps, 0) := by
  induction ps with
  | nil => rfl
  | cons a rest ih =>
    have hne : a.id ≠ pid := fun hc => h (by simp [hc])
    have hrest : pid ∉ rest.map (fun p => p.id) := fun hc => h (by simp [hc])
    have hcond : ¬(a.id = pid ∧ a.isActive = true ∧ q ≤ a.stock) :=
      fun hc => hne hc.1
    have hres := ih hrest
    have t1 : (condReserve rest pid q).1 = rest := by rw [hres]
    have t2 : (condReserve rest pid q).2 = 0 := by rw [hres]
    have h1 : (condReserve (a :: rest) pid q).1 = a :: rest := by
      rw [condReserve_fst, List.map_cons, if_neg hcond, ← condReserve_fst, t1]
    have h2 : (condReserve (a :: rest) pid q).2 = 0 := by
      rw [condReserve_snd, List.filter_cons, if_neg (by simp [hcond]),
        ← condReserve_snd, t2]
    exact Prod.ext h1 h2

/-- With unique product ids, a non-qualifying row with the requested id means
the conditional decrement is a no-op with zero rows affected (the operation
fails). -/
theorem condReserve_fail (ps : List Product) (pid : Nat) (q : Int)
    (p : Product) (hnd : (ps.map (fun p => p.id)).Nodup)
    (h : findProduct ps pid = some p)
    (hfail : ¬(p.isActive = true ∧ q ≤ p.stock)) :
    condReserve ps pid q = (ps, 0) := by
  induction ps with
  | nil => simp [findProduct] at h
  | cons a rest ih =>
    rw [List.map_cons, List.nodup_cons] at hnd
    by_cases hid : a.id = pid
    · have hap : a = p := by
        have := h
        simp only [findProduct] at this
        rw [List.find?_cons_of_pos _ (by simp [hid])] at this
        exact Option.some.inj this
      subst hap
      have hcond : ¬(a.id = pid ∧ a.isActive = true ∧ q ≤ a.stock) :=
        fun hc => hfail ⟨hc.2.1, hc.2.2⟩
      have hrest : pid ∉ rest.map (fun p => p.id) := hid ▸ hnd.1
      have hres := condReserve_not_mem rest pid q hrest
      have t1 : (condReserve rest pid q).1 = rest := by rw [hres]
      have t2 : (condReserve rest pid q).2 = 0 := by rw [hres]
      have h1 : (condReserve (a :: rest) pid q).1 = a :: rest := by
        rw [condReserve_fst, List.map_cons, if_neg hcond, ← condReserve_fst, t1]
      have h2 : (condReserve (a :: rest) pid q).2 = 0 := by
        rw [condReserve_snd, List.filter_cons, if_neg (by simp [hcond]),
          ← condReserve_snd, t2]
      exact Prod.ext h1 h2
    · have hrec : findProduct rest pid = some p := by
        have := h
        simp only [findProduct] at this
        rwa [List.find?_cons_of_neg _ (by simp [hid])] at this
      have hcond : ¬(a.id = pid ∧ a.isActive = true ∧ q ≤ a.stock) :=
        fun hc => hid hc.1
      have hres := ih hnd.2 hrec
      have t1 : (condReserve rest pid q).1 = rest := by rw [hres]
      have t2 : (condReserve rest pid q).2 = 0 := by rw [hres]
      have h1 : (condReserve (a :: rest) pid q).1 = a :: rest := by
        rw [condReserve_fst, List.map_cons, if_neg hcond, ← condReserve_fst, t1]
      have h2 : (condReserve (a :: rest) pid q).2 = 0 := by
        rw [condReserve_snd, List.filter_cons, if_neg (by simp [hcond]),
          ← condReserve_snd, t2]
      exact Prod.ext h1 h2

/-- With unique product ids, a qualifying reservation affects exactly one
row. -/
theorem condReserve_rows_one (ps : List Product) (pid : Nat) (q : Int)
    (p : Product) (hnd : (ps.map (fun p => p.id)).Nodup)
    (h : findProduct ps pid = some p) (ha : p.isActive = true)
    (hs : q ≤ p.stock) : (condReserve ps pid q).2 = 1 := by
  induction ps with
  | nil => simp [findProduct] at h
  | cons a rest ih =>
    rw [List.map_cons, List.nodup_cons] at hnd
    by_cases hid : a.id = pid
    · have hap : a = p := by
        have := h
        simp only [findProduct] at this
        rw [List.find?_cons_of_pos _ (by simp [hid])] at this
        exact Option.some.inj this
      subst hap
      have hcond : a.id = pid ∧ a.isActive = true ∧ q ≤ a.stock := ⟨hid, ha, hs⟩
      have hrest : pid ∉ rest.map (fun p => p.id) := hid ▸ hnd.1
      have hz := condReserve_not_mem rest pid q hrest
      have t2 : (condReserve rest pid q).2 = 0 := by rw [hz]
      rw [condReserve_snd, List.filter_cons, if_pos (by simp [hcond])]
      rw [List.length_cons, ← condReserve_snd, t2]
    · have hrec : findProduct rest pid = some p := by
        have := h
        simp only [findProduct] at this
        rwa [List.find?_cons_of_neg _ (by simp [hid])] at this
      have hcond : ¬(a.id = pid ∧ a.isActive = true ∧ q ≤ a.stock) :=
        fun hc => hid hc.1
      have hrec2 := ih hnd.2 hrec
      rw [condReserve_snd, List.filter_cons, if_neg (by simp [hcond]),
        ← condReserve_snd, hrec2]

/-! ## Lemmas about the reservation loop -/

/-- A request entry whose quantity does not coerce to a positive integer is
skipped by the creation loop. -/
theorem reserveItems_skip (ps : List Product) (r : ReqItem)
    (rest : List ReqItem) (h : coerceQty r.quantity ≤ 0) :
    reserveItems ps (r :: rest) = reserveItems ps rest := by
  simp only [reserveItems]
  rw [if_pos h]

theorem reqIds_cons_skip (r : ReqItem) (rest : List ReqItem)
    (h : coerceQty r.quantity ≤ 0) : reqIds (r :: rest) = reqIds rest := by
  have : ¬0 < coerceQty r.quantity := by omega
  simp [reqIds, List.filterMap_cons, this]

theorem reqIds_cons_take (r : ReqItem) (rest : List ReqItem) (pid : Nat)
    (h : 0 < coerceQty r.quantity) (hid : r.id = some pid) :
    reqIds (r :: rest) = pid :: reqIds rest := by
  simp [reqIds, List.filterMap_cons, h, hid]

/-- The creation loop's step on a reserving entry whose id key is absent. -/
theorem reserveItems_cons_none (ps : List Product) (r : ReqItem)
    (rest : List ReqItem) (hq : ¬coerceQty r.quantity ≤ 0)
    (hid : r.id = none) :
    reserveItems ps (r :: rest) = .error .productGone := by
  simp only [reserveItems]
  rw [if_neg hq, hid]

/-- The creation loop's step on a reserving entry with a product id. -/
theorem reserveItems_cons_some (ps : List Product) (r : ReqItem)
    (rest : List ReqItem) (pid : Nat) (hq : ¬coerceQty r.quantity ≤ 0)
    (hid : r.id = some pid) :
    reserveItems ps (r :: rest) =
      if (condReserve ps pid (coerceQty r.quantity)).2 = 0 then
        match findProduct ps pid with
        | some p => .error (.insufficientStock p.name p.stock)
        | none => .error .productGone
      else
        match findProduct (condReserve ps pid (coerceQty r.quantity)).1 pid with
        | none => .error .productGone
        | some p =>
          match reserveItems (condReserve ps pid (coerceQty r.quantity)).1
              rest with
          | .error e => .error e
          | .ok (psf, snaps) =>
            .ok (psf, snapshotItem p (coerceQty r.quantity) :: snaps) := by
  simp only [reserveItems]
  rw [if_neg hq, hid]

/-- When the reservation loop raises the insufficient-stock error, the name
and stock figure it reports belong to a product of the table it started
from, provided no reserving product id repeats within the request. -/
theorem reserveItems_insufficient (rs : List ReqItem) :
    ∀ (ps : List Product) (nm : String) (s : Int),
      (reqIds rs).Nodup →
      reserveItems ps rs = .error (.insufficientStock nm s) →
      ∃ pid p, pid ∈ reqIds rs ∧ findProduct ps pid = some p ∧
        p.name = nm ∧ p.stock = s := by
  induction rs with
  | nil =>
    intro ps nm s _ h
    simp [reserveItems] at h
  | cons r rest ih =>
    intro ps nm s hnd h
    by_cases hq : coerceQty r.quantity ≤ 0
    · rw [reserveItems_skip ps r rest hq] at h
      rw [reqIds_cons_skip r rest hq] at hnd ⊢
      exact ih ps nm s hnd h
    · have hq2 : 0 < coerceQty r.quantity := by omega
      cases hid : r.id with
      | none =>
        rw [reserveItems_cons_none ps r rest hq hid] at h
        simp at h
      | some pid =>
        rw [reserveItems_cons_some ps r rest pid hq hid] at h
        rw [reqIds_cons_take r rest pid hq2 hid] at hnd ⊢
        rw [List.nodup_cons] at hnd
        by_cases hz : (condReserve ps pid (coerceQty r.quantity)).2 = 0
        · rw [if_pos hz] at h
          cases hf : findProduct ps pid with
          | none =>
            rw [hf] at h
            simp at h
          | some p =>
            rw [hf] at h
            simp only [Except.error.injEq, CreateError.insufficientStock.injEq]
              at h
            exact ⟨pid, p, List.mem_cons_self pid _, hf, h.1, h.2⟩
        · rw [if_neg hz] at h
          cases hf : findProduct (condReserve ps pid (coerceQty r.quantity)).1
              pid with
          | none =>
            rw [hf] at h
            simp at h
          | some p =>
            rw [hf] at h
            cases hrec : reserveItems
                (condReserve ps pid (coerceQty r.quantity)).1 rest with
            | error e =>
              rw [hrec] at h
              have he : e = .insufficientStock nm s := Except.error.inj h
              subst he
              obtain ⟨pid2, p2, hmem2, hfind2, hn2, hs2⟩ :=
                ih (condReserve ps pid (coerceQty r.quantity)).1 nm s hnd.2 hrec
              have hne : pid2 ≠ pid := fun hc => hnd.1 (hc ▸ hmem2)
              rw [findProduct_condReserve_ne ps pid (coerceQty r.quantity) pid2
                hne] at hfind2
              exact ⟨pid2, p2, List.mem_cons_of_mem pid hmem2, hfind2, hn2, hs2⟩
            | ok v =>
              rw [hrec] at h
              obtain ⟨psf, snaps⟩ := v
              simp at h

/-! ## Lemmas about the daily serial -/

theorem saveNewOrder_orders (db : DB) (storeId : Nat) (ph pm : String)
    (items : List LineItem) (st : OrderStatus) (now t : Nat) :
    (saveNewOrder db storeId ph pm items st now t).1.orders =
      db.orders ++ [(saveNewOrder db storeId ph pm items st now t).2] := rfl

theorem saveNewOrder_storeId (db : DB) (storeId : Nat) (ph pm : String)
    (items : List LineItem) (st : OrderStatus) (now t : Nat) :
    (saveNewOrder db storeId ph pm items st now t).2.storeId = storeId := rfl

theorem saveNewOrder_createdAt (db : DB) (storeId : Nat) (ph pm : String)
    (items : List LineItem) (st : OrderStatus) (now t : Nat) :
    (saveNewOrder db storeId ph pm items st now t).2.createdAt = now := rfl

theorem saveNewOrder_dailySerial (db : DB) (storeId : Nat) (ph pm : String)
    (items : List LineItem) (st : OrderStatus) (now t : Nat) :
    (saveNewOrder db storeId ph pm items st now t).2.dailySerial =
      nextSerial db.orders storeId t := rfl

theorem todaySerials_append (orders : List Order) (o : Order) (sid t : Nat) :
    todaySerials (orders ++ [o]) sid t =
      todaySerials orders sid t ++
        (if o.storeId = sid ∧ t ≤ o.createdAt then [o.dailySerial] else []) := by
  by_cases h : o.storeId = sid ∧ t ≤ o.createdAt <;>
    simp [todaySerials, List.filter_append, List.filter_cons, h]

theorem max?_range'_succ (k : Nat) : ∀ s : Nat,
    (List.range' s (k + 1)).max? = some (s + k) := by
  induction k with
  | zero =>
    intro s
    rw [List.range'_succ]
    simp [List.max?_cons]
  | succ j ih =>
    intro s
    rw [List.range'_succ, List.max?_cons, ih (s + 1)]
    have hm : max s (s + 1 + j) = s + 1 + j := Nat.max_eq_right (by omega)
    simp only [Option.elim, hm]
    exact congrArg some (by omega)

theorem nextSerial_of_range (orders : List Order) (sid t k : Nat)
    (h : todaySerials orders sid t = List.range' 1 k) :
    nextSerial orders sid t = k + 1 := by
  simp only [nextSerial, h]
  cases k with
  | zero => rfl
  | succ j =>
    rw [max?_range'_succ j 1]
    show 1 + j + 1 = j + 1 + 1
    omega

/-- Sequential creation extends the day's serial list by consecutive
integers. -/
theorem saveMany_serials (ds : List NewOrderData) :
    ∀ (db : DB) (sid t k : Nat),
      todaySerials db.orders sid t = List.range' 1 k →
      (∀ d ∈ ds, t ≤ d.createdAt) →
      todaySerials (saveMany db sid t ds).orders sid t =
        List.range' 1 (k + ds.length) := by
  induction ds with
  | nil =>
    intro db sid t k h _
    simpa using h
  | cons d rest ih =>
    intro db sid t k h hts
    have hstep : saveMany db sid t (d :: rest) =
        saveMany (saveNewOrder db sid d.phoneTail d.paymentMethod d.items
          .pending d.createdAt t).1 sid t rest := rfl
    rw [hstep]
    have h1 : todaySerials (saveNewOrder db sid d.phoneTail d.paymentMethod
        d.items .pending d.createdAt t).1.orders sid t =
        List.range' 1 (k + 1) := by
      rw [saveNewOrder_orders, todaySerials_append, h,
        if_pos ⟨saveNewOrder_storeId db sid d.phoneTail d.paymentMethod
            d.items .pending d.createdAt t,
          by
            rw [saveNewOrder_createdAt]
            exact hts d (List.mem_cons_self d rest)⟩,
        saveNewOrder_dailySerial, nextSerial_of_range db.orders sid t k h]
      have harith : 1 + 1 * k = k + 1 := by omega
      rw [List.range'_concat, harith]
    rw [ih _ sid t (k + 1) h1 (fun d2 hd2 => hts d2 (List.mem_cons_of_mem d hd2)),
      List.length_cons]
    congr 1
    omega

/-! ## Lemmas about the daily reset -/

theorem DB.ext3 (a b : DB) (h1 : a.stores = b.stores)
    (h2 : a.products = b.products) (h3 : a.orders = b.orders) : a = b := by
  cases a
  cases b
  simp_all

/-- The batch stock restore of the daily reset adds, to every product, the
total quantity reserved across all affected orders. -/
theorem resetDaily_products (db : DB) (sid now : Nat) :
    (resetDailyView db sid now).products =
      db.products.map (fun p =>
        { p with stock := p.stock + ordersTotal (inflightOf db sid) p.id }) := by
  show releaseList db.products (collectUpdates (inflightOf db sid)) = _
  rw [releaseList_eq_map]
  exact List.map_congr_left (fun p _ => by rw [sumFor_collectUpdates])

/-- The daily reset maps every order: in-flight orders of the store are
cancelled and saved, final ones archived, the rest untouched. -/
theorem resetDaily_orders (db : DB) (sid now : Nat) :
    (resetDailyView db sid now).orders =
      db.orders.map (fun o =>
        if o.storeId = sid ∧ isInflight o.status = true then
          resave { o with status := .cancelled } now
        else if o.storeId = sid ∧ o.status = .final then
          { o with status := .archived }
        else o) := by
  show (db.orders.map _).map _ = _
  rw [List.map_map]
  refine List.map_congr_left (fun o _ => ?_)
  simp only [Function.comp_apply]
  by_cases h1 : o.storeId = sid ∧ isInflight o.status = true
  · rw [if_pos h1, if_pos h1]
    have hst : (resave { o with status := OrderStatus.cancelled } now).status =
        OrderStatus.cancelled := rfl
    rw [if_neg (fun hc => by
      rw [hst] at hc
      exact OrderStatus.noConfusion hc.2)]
  · rw [if_neg h1, if_neg h1]

/-- Statuses left by the daily reset on the store's orders. -/
theorem resetDaily_status (db : DB) (sid now : Nat) (o1 : Order)
    (hmem : o1 ∈ (resetDailyView db sid now).orders) (hsid : o1.storeId = sid) :
    o1.status = .cancelled ∨ o1.status = .archived := by
  rw [resetDaily_orders] at hmem
  rcases List.mem_map.mp hmem with ⟨o, homem, heq⟩
  by_cases h1 : o.storeId = sid ∧ isInflight o.status = true
  · rw [if_pos h1] at heq
    left
    rw [← heq]
    rfl
  · rw [if_neg h1] at heq
    by_cases h2 : o.storeId = sid ∧ o.status = .final
    · rw [if_pos h2] at heq
      right
      rw [← heq]
    · rw [if_neg h2] at heq
      subst heq
      cases ho : o.status with
      | pending => exact absurd ⟨hsid, by rw [ho]; rfl⟩ h1
      | confirmed => exact absurd ⟨hsid, by rw [ho]; rfl⟩ h1
      | preparing => exact absurd ⟨hsid, by rw [ho]; rfl⟩ h1
      | completed => exact absurd ⟨hsid, by rw [ho]; rfl⟩ h1
      | arrived => exact absurd ⟨hsid, by rw [ho]; rfl⟩ h1
      | final => exact absurd ⟨hsid, ho⟩ h2
      | cancelled => exact Or.inl rfl
      | archived => exact Or.inr rfl

/-- Running the daily reset a second time changes nothing. -/
theorem resetDaily_idem (db : DB) (sid now now2 : Nat) :
    resetDailyView (resetDailyView db sid now) sid now2 =
      resetDailyView db sid now := by
  apply DB.ext3
  · rfl
  · show releaseList (resetDailyView db sid now).products
        (collectUpdates (inflightOf (resetDailyView db sid now) sid)) = _
    have hfil : inflightOf (resetDailyView db sid now) sid = [] := by
      rw [inflightOf, List.filter_eq_nil_iff]
      intro o1 hmem hc
      rw [Bool.and_eq_true] at hc
      have hsid : o1.storeId = sid := of_decide_eq_true hc.1
      rcases resetDaily_status db sid now o1 hmem hsid with hst | hst <;>
        rw [hst] at hc <;> exact Bool.noConfusion hc.2
    rw [hfil]
    rfl
  · show (((resetDailyView db sid now).orders.map _).map _) = _
    have hm1 : (resetDailyView db sid now).orders.map
        (fun o =>
          if o.storeId = sid ∧ isInflight o.status = true then
            resave { o with status := .cancelled } now2
          else o) = (resetDailyView db sid now).orders := by
      rw [List.map_congr_left (fun o1 hmem => ?_), List.map_id']
      by_cases hsid : o1.storeId = sid
      · rcases resetDaily_status db sid now o1 hmem hsid with hst | hst <;>
          · rw [if_neg (fun hc => ?_)]
            rw [hst] at hc
            exact Bool.noConfusion hc.2
      · rw [if_neg (fun hc => hsid hc.1)]
    rw [hm1]
    rw [List.map_congr_left (fun o1 hmem => ?_), List.map_id']
    by_cases hsid : o1.storeId = sid
    · rcases resetDaily_status db sid now o1 hmem hsid with hst | hst <;>
        · rw [if_neg (fun hc => ?_)]
          rw [hst] at hc
          exact OrderStatus.noConfusion hc.2
    · rw [if_neg (fun hc => hsid hc.1)]

/-! # Claim theorems -/

/-- Claim C1: the stock reservation performed during order creation (the
conditional decrement of `OrderViewSet.create`) decrements the product's
stock only when the product is active and its stock is at least q; a
successful reservation leaves stock equal to the old stock minus q (hence
never below zero) and touches no other product, and a reservation that does
not meet the condition leaves the product table unchanged and makes the
creation loop raise. -/
theorem C1_reserve_conditional (ps : List Product) (pid : Nat) (q : Int)
    (p : Product) (hnd : (ps.map (fun x => x.id)).Nodup)
    (hfind : findProduct ps pid = some p) (hq : 1 ≤ q) :
    (p.isActive = true ∧ q ≤ p.stock →
      (condReserve ps pid q).2 = 1 ∧
      findProduct (condReserve ps pid q).1 pid =
        some { p with stock := p.stock - q } ∧
      0 ≤ p.stock - q ∧
      ∀ k, k ≠ pid →
        findProduct (condReserve ps pid q).1 k = findProduct ps k) ∧
    (¬(p.isActive = true ∧ q ≤ p.stock) →
      condReserve ps pid q = (ps, 0) ∧
      ∀ rest : List ReqItem,
        reserveItems ps (⟨some pid, .num q⟩ :: rest) =
          .error (.insufficientStock p.name p.stock)) := by
  constructor
  · rintro ⟨ha, hs⟩
    exact ⟨condReserve_rows_one ps pid q p hnd hfind ha hs,
      findProduct_condReserve_self ps pid q p hfind ha hs, by omega,
      fun k hk => findProduct_condReserve_ne ps pid q k hk⟩
  · intro hfail
    have hcr := condReserve_fail ps pid q p hnd hfind hfail
    refine ⟨hcr, fun rest => ?_⟩
    have hq0 : ¬coerceQty (⟨some pid, QtyVal.num q⟩ : ReqItem).quantity ≤ 0 := by
      show ¬q ≤ 0
      omega
    rw [reserveItems_cons_some ps ⟨some pid, QtyVal.num q⟩ rest pid hq0 rfl]
    rw [show coerceQty (⟨some pid, QtyVal.num q⟩ : ReqItem).quantity = q
      from rfl]
    have hz : (condReserve ps pid q).2 = 0 := by rw [hcr]
    rw [if_pos hz, hfind]

/-- Claim C1 witness: concrete successful reservation of 2 units against
stock 4. -/
theorem C1_reserve_conditional_witness :
    (([exProd 4].map (fun x => x.id)).Nodup ∧
      findProduct [exProd 4] 1 = some (exProd 4) ∧ (1 : Int) ≤ 2) ∧
    (condReserve [exProd 4] 1 2).2 = 1 ∧
    findProduct (condReserve [exProd 4] 1 2).1 1 = some (exProd 2) := by
  have h := C1_reserve_conditional [exProd 4] 1 2 (exProd 4) (by decide)
    (by decide) (by decide)
  have h2 := h.1 (by decide)
  refine ⟨⟨by decide, by decide, by decide⟩, h2.1, ?_⟩
  rw [h2.2.1]
  decide

/-- Claim C4: cancelling an order that is not already cancelled or archived
restores each product's stock by the order's line quantities, marks the
order cancelled (items untouched), and a second cancel call succeeds while
changing neither the database nor any stock. -/
theorem C4_cancel_releases_once (db : DB) (oid now now2 : Nat) (o : Order)
    (hfind : findOrder db.orders oid = some o)
    (hst : o.status ≠ .cancelled ∧ o.status ≠ .archived) :
    (cancelView db oid now).2 = .success false ∧
    (cancelView db oid now).1.products =
      db.products.map (fun p =>
        { p with stock := p.stock + itemsTotal o.items p.id }) ∧
    (cancelView db oid now).1.orders =
      putOrder db.orders (resave { o with status := .cancelled } now) ∧
    (resave { o with status := .cancelled } now).items = o.items ∧
    cancelView (cancelView db oid now).1 oid now2 =
      ((cancelView db oid now).1, .success true) := by
  have hcond : ¬(o.status = .cancelled ∨ o.status = .archived) := by tauto
  have hrun : cancelView db oid now =
      ({ db with
          products := restoreStock db.products o.items
          orders := putOrder db.orders
            (resave { o with status := .cancelled } now) },
       .success false) := by
    simp only [cancelView, hfind]
    rw [if_neg hcond]
  refine ⟨by rw [hrun], ?_, by rw [hrun], rfl, ?_⟩
  · rw [hrun]
    exact restoreStock_eq_map db.products o.items
  · have hoid : o.pk = oid := by
      have hx : List.find? (fun x => decide (x.pk = oid)) db.orders = some o :=
        hfind
      simpa using List.find?_some hx
    have hfind2 : findOrder (cancelView db oid now).1.orders oid =
        some (resave { o with status := .cancelled } now) := by
      rw [hrun]
      exact findOrder_putOrder db.orders oid o _ hfind
        (by rw [resave_pk]; exact hoid)
    generalize hdb1 : (cancelView db oid now).1 = db1 at hfind2 ⊢
    simp only [cancelView, hfind2]
    have hcc : (resave { o with status := OrderStatus.cancelled } now).status =
          OrderStatus.cancelled ∨
        (resave { o with status := OrderStatus.cancelled } now).status =
          OrderStatus.archived := Or.inl rfl
    rw [if_pos hcc]

/-- Claim C4 witness: cancelling the concrete pending order releases its two
reserved units exactly once. -/
theorem C4_cancel_releases_once_witness :
    (findOrder exDB3.orders 7 = some (exOrder .pending) ∧
      (exOrder .pending).status ≠ .cancelled ∧
      (exOrder .pending).status ≠ .archived) ∧
    (cancelView exDB3 7 6).2 = .success false ∧
    findProduct (cancelView exDB3 7 6).1.products 1 = some (exProd 6) ∧
    cancelView (cancelView exDB3 7 6).1 7 8 =
      ((cancelView exDB3 7 6).1, .success true) := by
  have h := C4_cancel_releases_once exDB3 7 6 8 (exOrder .pending) (by decide)
    ⟨by decide, by decide⟩
  refine ⟨⟨by decide, by decide, by decide⟩, h.1, ?_, h.2.2.2.2⟩
  rw [h.2.1]
  decide

/-- Claim C7: the daily reset cancels every in-flight order of the store,
adds back to each product the coalesced total quantity reserved across all
affected orders, archives every final order with no stock effect, and a
second run changes nothing. -/
theorem C7_reset_daily (db : DB) (sid now now2 : Nat) :
    (resetDailyView db sid now).products =
      db.products.map (fun p =>
        { p with stock := p.stock + ordersTotal (inflightOf db sid) p.id }) ∧
    (resetDailyView db sid now).orders =
      db.orders.map (fun o =>
        if o.storeId = sid ∧ isInflight o.status = true then
          resave { o with status := .cancelled } now
        else if o.storeId = sid ∧ o.status = .final then
          { o with status := .archived }
        else o) ∧
    resetDailyView (resetDailyView db sid now) sid now2 =
      resetDailyView db sid now :=
  ⟨resetDaily_products db sid now, resetDaily_orders db sid now,
    resetDaily_idem db sid now now2⟩

/-- Claim C8: refund is only valid for gateway payments with a transaction
id, skips the provider when already refunded, records the refund transaction
id and flag on success — so two refund calls make exactly one provider call
and leave the refunded flag set. -/
theorem C8_refund_idempotent (o : Order) (tx tx2 : String) (pOk : Bool)
    (hv : o.paymentMethod = "linepay" ∧ o.linepayTransactionId ≠ none)
    (hnr : o.linepayRefunded = false) :
    refundOrder o true tx =
      ({ o with
          linepayRefunded := true
          linepayRefundTransactionId := some tx }, .ok, 1) ∧
    refundOrder o false tx = (o, .providerError, 1) ∧
    refundOrder (refundOrder o true tx).1 pOk tx2 =
      ((refundOrder o true tx).1, .ok, 0) ∧
    (refundOrder o true tx).1.linepayRefunded = true ∧
    (∀ o2 : Order,
      ¬(o2.paymentMethod = "linepay" ∧ o2.linepayTransactionId ≠ none) →
      refundOrder o2 pOk tx = (o2, .invalid, 0)) := by
  have hr1 : refundOrder o true tx =
      ({ o with
          linepayRefunded := true
          linepayRefundTransactionId := some tx }, .ok, 1) := by
    rw [refundOrder, if_pos hv, if_neg (by simp [hnr]), if_pos rfl]
  refine ⟨hr1, ?_, ?_, ?_, ?_⟩
  · rw [refundOrder, if_pos hv, if_neg (by simp [hnr]), if_neg (by simp)]
  · rw [hr1]
    rw [refundOrder, if_pos ⟨hv.1, hv.2⟩, if_pos rfl]
  · rw [hr1]
  · intro o2 h2
    rw [refundOrder, if_neg h2]

/-- Claim C8 witness: refunding the concrete paid order twice performs one
provider call and leaves it refunded. -/
theorem C8_refund_idempotent_witness :
    (exOrderPay.paymentMethod = "linepay" ∧
      exOrderPay.linepayTransactionId ≠ none ∧
      exOrderPay.linepayRefunded = false) ∧
    (refundOrder exOrderPay true ("RTX")).2.2 = 1 ∧
    refundOrder (refundOrder exOrderPay true ("RTX")).1 true ("RTX2") =
      ((refundOrder exOrderPay true ("RTX")).1, .ok, 0) ∧
    (refundOrder exOrderPay true ("RTX")).1.linepayRefunded = true := by
  have h := C8_refund_idempotent exOrderPay ("RTX") ("RTX2") true
    ⟨by decide, by decide⟩ (by decide)
  exact ⟨⟨by decide, by decide, by decide⟩, by rw [h.1], h.2.2.1, h.2.2.2.1⟩

/-- Claim C2 counterexample: a request listing the same product twice
(stock 4, quantities 2 and 3) fails with an insufficient-stock error that
reports 2 remaining, while the product's stock — unchanged by the rolled
back call — is 4, so the reported figure is not the product's remaining
stock. -/
theorem C2_counterexample :
    createOrderRun exDBe exReq2 10 0 true =
      (exDBe, .error (.insufficientStock ("紅茶") 2)) ∧
    findProduct exDBe.products 1 = some (exProd 4) ∧
    (exProd 4).stock = 4 := by
  refine ⟨rfl, by decide, by decide⟩

/-- Claim C2 (amended): order creation is all-or-nothing — whenever it
fails, no order is persisted and every product's stock equals its value
before the call; a failure on insufficient stock reports an existing
product's name together with a stock figure read inside the aborted
transaction, which equals that product's unchanged stock whenever the
request does not repeat a product id. -/
theorem C2_create_all_or_nothing (db : DB) (req : CreateRequest)
    (now t : Nat) (gOk : Bool) (e : CreateError)
    (h : (createOrderRun db req now t gOk).2 = .error e) :
    (createOrderRun db req now t gOk).1 = db ∧
    (∀ nm s, e = .insufficientStock nm s → (reqIdsOpt req.items).Nodup →
      ∃ p, p ∈ db.products ∧ p.name = nm ∧ p.stock = s) := by
  cases hc : createOrder db req now t gOk with
  | ok v =>
    have h2 : (createOrderRun db req now t gOk).2 = .ok v.2 := by
      simp only [createOrderRun, hc]
    rw [h2] at h
    exact Except.noConfusion h
  | error e2 =>
    have h1 : createOrderRun db req now t gOk = (db, .error e2) := by
      simp only [createOrderRun, hc]
    have he : e2 = e := by
      rw [h1] at h
      exact Except.error.inj h
    subst he
    refine ⟨by rw [h1], ?_⟩
    rintro nm s rfl hnod
    simp only [createOrder] at hc
    cases hst : findStore db.stores req.storeSlug with
    | none =>
      simp only [hst] at hc
      simp at hc
    | some store =>
      simp only [hst] at hc
      cases hit : req.items with
      | none =>
        simp only [hit] at hc
        simp at hc
      | some rs =>
        simp only [hit] at hc
        rw [hit] at hnod
        cases hres : reserveItems db.products rs with
        | error e3 =>
          simp only [hres] at hc
          have he3 : e3 = .insufficientStock nm s := Except.error.inj hc
          subst he3
          obtain ⟨pid, p, _, hfind, hn, hs⟩ :=
            reserveItems_insufficient rs db.products nm s hnod hres
          exact ⟨p, List.mem_of_find?_eq_some hfind, hn, hs⟩
        | ok v2 =>
          simp only [hres] at hc
          obtain ⟨ps2, snaps2⟩ := v2
          by_cases hv : validOrderData req.phoneTail req.paymentMethod = true
          · rw [if_pos hv] at hc
            by_cases hlp : req.paymentMethod = "linepay"
            · rw [if_pos hlp] at hc
              cases gOk with
              | true => simp at hc
              | false => simp at hc
            · rw [if_neg hlp] at hc
              simp at hc
          · rw [if_neg hv] at hc
            simp at hc

/-- Claim C2 witness: a single-item request exceeding stock fails, rolls
back, and reports the product's unchanged stock. -/
theorem C2_create_all_or_nothing_witness :
    (createOrderRun exDBe exReq2w 10 0 true).2 =
      .error (.insufficientStock ("紅茶") 4) ∧
    (createOrderRun exDBe exReq2w 10 0 true).1 = exDBe ∧
    (∃ p, p ∈ exDBe.products ∧ p.name = "紅茶" ∧ p.stock = 4) := by
  have h := C2_create_all_or_nothing exDBe exReq2w 10 0 true
    (.insufficientStock ("紅茶") 4) rfl
  exact ⟨rfl, h.1, h.2 ("紅茶") 4 rfl (by decide)⟩

/-- Claim C3 counterexample: an unauthenticated PATCH carrying no phone
tail that moves a pending order to confirmed — neither completed→arrived
nor final — is accepted and applied, although the claim requires any other
transition from an unauthenticated request to be rejected. -/
theorem C3_counterexample :
    (customerPatch exDB3 7 exPatch3 6 0).2 = true ∧
    (exOrder .pending).status = .pending ∧
    findOrder (customerPatch exDB3 7 exPatch3 6 0).1.orders 7 =
      some (drfPatch (exOrder .pending) exPatch3 6) ∧
    (drfPatch (exOrder .pending) exPatch3 6).status = .confirmed ∧
    retrieveView exDB3 7 none 0 = .ok (exOrder .pending) := by
  refine ⟨rfl, by decide, by decide, by decide, by decide⟩

/-- Claim C3 (amended): an unauthenticated fetch is denied only when a
non-empty phone_tail parameter differing from the order's is supplied —
with no parameter (or an empty one, or a matching one) the order is
returned; and an unauthenticated partial update of a queryset-visible order
is accepted unconditionally, writing every supplied writable field through
the default update path with no phone-tail check and no transition
restriction. -/
theorem C3_customer_access (db : DB) (oid t now : Nat) (o : Order)
    (u : UpdatePayload) (h : findVisibleOrder db oid t = some o) :
    retrieveView db oid none t = .ok o ∧
    retrieveView db oid (some ("")) t = .ok o ∧
    retrieveView db oid (some o.phoneTail) t = .ok o ∧
    (∀ s2, s2 ≠ "" → s2 ≠ o.phoneTail →
      retrieveView db oid (some s2) t = .forbidden) ∧
    customerPatch db oid u now t =
      ({ db with orders := putOrder db.orders (drfPatch o u now) }, true) := by
  refine ⟨?_, ?_, ?_, ?_, ?_⟩
  · simp only [retrieveView, h]
  · simp only [retrieveView, h]
    rw [if_neg (fun hc => hc.1 rfl)]
  · simp only [retrieveView, h]
    rw [if_neg (fun hc => hc.2 rfl)]
  · intro s2 hs1 hs2
    simp only [retrieveView, h]
    rw [if_pos ⟨hs1, hs2⟩]
  · simp only [customerPatch, h]

/-- Claim C3 witness: the amended behavior on the concrete pending order —
fetch succeeds without a phone tail, is denied on a mismatching one, and an
arbitrary unauthenticated update is accepted. -/
theorem C3_customer_access_witness :
    findVisibleOrder exDB3 7 0 = some (exOrder .pending) ∧
    retrieveView exDB3 7 none 0 = .ok (exOrder .pending) ∧
    retrieveView exDB3 7 (some ("9999")) 0 = .forbidden ∧
    (customerPatch exDB3 7 exPatch3 6 0).2 = true := by
  have h := C3_customer_access exDB3 7 0 6 (exOrder .pending) exPatch3
    (by decide)
  refine ⟨by decide, h.1, h.2.2.2.1 ("9999") (by decide) (by decide), ?_⟩
  rw [h.2.2.2.2]

/-- Claim C5: the confirm callback is idempotent — an already-confirmed
order returns success with no provider call and no state change; otherwise
a provider confirmation transitions the order to confirmed and persists the
transaction id (one provider call), a provider rejection releases each
product's reserved quantity and cancels the order, and a second delivery
after a successful one is a no-op success with no provider call. -/
theorem C5_confirm_idempotent (db : DB) (oid now now2 : Nat) (o : Order)
    (tx tx2 : String) (txo : Option String) (pOk pOk2 : Bool)
    (hfind : findOrder db.orders oid = some o) :
    (o.status = .confirmed →
      lineConfirmView db oid txo pOk now = (db, .successRedirect, 0)) ∧
    (o.status ≠ .confirmed →
      lineConfirmView db oid (some tx) true now =
        ({ db with
            orders := putOrder db.orders
              (resave
                { o with
                  status := .confirmed
                  paymentMethod := "linepay"
                  linepayTransactionId := some tx } now) },
         .successRedirect, 1) ∧
      (resave
        { o with
          status := .confirmed
          paymentMethod := "linepay"
          linepayTransactionId := some tx } now).status = .confirmed ∧
      (resave
        { o with
          status := .confirmed
          paymentMethod := "linepay"
          linepayTransactionId := some tx } now).linepayTransactionId =
        some tx ∧
      lineConfirmView db oid (some tx) false now =
        ({ db with
            products := db.products.map (fun p =>
              { p with stock := p.stock + itemsTotal o.items p.id })
            orders := putOrder db.orders
              (resave { o with status := .cancelled } now) },
         .paymentFailed, 1) ∧
      (resave { o with status := .cancelled } now).status = .cancelled ∧
      lineConfirmView (lineConfirmView db oid (some tx) true now).1 oid
          (some tx2) pOk2 now2 =
        ((lineConfirmView db oid (some tx) true now).1,
          .successRedirect, 0)) := by
  constructor
  · intro hconf
    simp only [lineConfirmView, hfind]
    rw [if_pos hconf]
  · intro hnc
    have hok : lineConfirmView db oid (some tx) true now =
        ({ db with
            orders := putOrder db.orders
              (resave
                { o with
                  status := .confirmed
                  paymentMethod := "linepay"
                  linepayTransactionId := some tx } now) },
         .successRedirect, 1) := by
      simp only [lineConfirmView, hfind]
      rw [if_neg hnc]
      simp
    refine ⟨hok, rfl, rfl, ?_, rfl, ?_⟩
    · have hfail : lineConfirmView db oid (some tx) false now =
          ({ db with
              products := restoreStock db.products o.items
              orders := putOrder db.orders
                (resave { o with status := .cancelled } now) },
           .paymentFailed, 1) := by
        simp only [lineConfirmView, hfind]
        rw [if_neg hnc]
        simp
      rw [hfail, restoreStock_eq_map]
    · have hoid : o.pk = oid := by
        have hx : List.find? (fun x => decide (x.pk = oid)) db.orders =
            some o := hfind
        simpa using List.find?_some hx
      have hfind2 : findOrder (lineConfirmView db oid (some tx) true now).1.orders
          oid = some (resave
            { o with
              status := .confirmed
              paymentMethod := "linepay"
              linepayTransactionId := some tx } now) := by
        rw [hok]
        exact findOrder_putOrder db.orders oid o _ hfind
          (by rw [resave_pk]; exact hoid)
      generalize hdb1 : (lineConfirmView db oid (some tx) true now).1 = db1
        at hfind2 ⊢
      simp only [lineConfirmView, hfind2]
      have hcc : (resave
          { o with
            status := OrderStatus.confirmed
            paymentMethod := "linepay"
            linepayTransactionId := some tx } now).status =
          OrderStatus.confirmed := rfl
      rw [if_pos hcc]

/-- Claim C5 witness: the concrete pending order is confirmed once by the
callback and the second delivery is a no-op success without a provider
call. -/
theorem C5_confirm_idempotent_witness :
    findOrder exDB3.orders 7 = some (exOrder .pending) ∧
    (exOrder .pending).status ≠ .confirmed ∧
    (lineConfirmView exDB3 7 (some ("TX1")) true 6).2 =
      (ConfirmOutcome.successRedirect, 1) ∧
    lineConfirmView (lineConfirmView exDB3 7 (some ("TX1")) true 6).1 7
        (some ("TX9")) true 8 =
      ((lineConfirmView exDB3 7 (some ("TX1")) true 6).1,
        .successRedirect, 0) := by
  have h := C5_confirm_idempotent exDB3 7 6 8 (exOrder .pending) ("TX1")
    ("TX9") none true true (by decide)
  have h2 := h.2 (by decide)
  refine ⟨by decide, by decide, ?_, h2.2.2.2.2.2⟩
  rw [h2.1]

/-- Claim C6: a freshly persisted order's serial is one plus the day's
maximum (or 1 when none exists); orders of one store created sequentially
within one day starting from an empty day carry serials 1..n — pairwise
distinct, with maximum equal to the number created — and a save of an
already-persisted order never changes its serial. -/
theorem C6_daily_serial (db : DB) (sid t : Nat) (ds : List NewOrderData)
    (h0 : todaySerials db.orders sid t = [])
    (hts : ∀ d ∈ ds, t ≤ d.createdAt) :
    todaySerials (saveMany db sid t ds).orders sid t =
      List.range' 1 ds.length ∧
    (todaySerials (saveMany db sid t ds).orders sid t).Nodup ∧
    (todaySerials (saveMany db sid t ds).orders sid t).length = ds.length ∧
    (0 < ds.length →
      (todaySerials (saveMany db sid t ds).orders sid t).max? =
        some ds.length) ∧
    (∀ (db2 : DB) (st2 : Nat) (ph pm : String) (its : List LineItem)
        (os : OrderStatus) (now2 : Nat),
      ((todaySerials db2.orders st2 t).max? = none →
        (saveNewOrder db2 st2 ph pm its os now2 t).2.dailySerial = 1) ∧
      (∀ m, (todaySerials db2.orders st2 t).max? = some m →
        (saveNewOrder db2 st2 ph pm its os now2 t).2.dailySerial = m + 1)) ∧
    (∀ (o : Order) (now3 : Nat), (resave o now3).dailySerial = o.dailySerial) := by
  have hmain : todaySerials (saveMany db sid t ds).orders sid t =
      List.range' 1 ds.length := by
    have h := saveMany_serials ds db sid t 0 (by rw [h0]; rfl) hts
    simpa using h
  refine ⟨hmain, ?_, ?_, ?_, ?_, fun o now3 => rfl⟩
  · rw [hmain]
    exact List.nodup_range' 1 ds.length
  · rw [hmain, List.length_range']
  · intro hlen
    rw [hmain]
    cases hn : ds.length with
    | zero => omega
    | succ j =>
      rw [max?_range'_succ j 1]
      exact congrArg some (by omega)
  · intro db2 st2 ph pm its os now2
    constructor
    · intro hmax
      rw [saveNewOrder_dailySerial]
      simp only [nextSerial, hmax]
    · intro m hmax
      rw [saveNewOrder_dailySerial]
      simp only [nextSerial, hmax]

/-- Claim C6 witness: two orders created sequentially on an empty day get
serials 1 and 2. -/
theorem C6_daily_serial_witness :
    todaySerials exDBe.orders 1 0 = [] ∧
    todaySerials (saveMany exDBe 1 0 [exNOD 5, exNOD 6]).orders 1 0 =
      [1, 2] ∧
    (todaySerials (saveMany exDBe 1 0 [exNOD 5, exNOD 6]).orders 1 0).Nodup ∧
    (todaySerials (saveMany exDBe 1 0 [exNOD 5, exNOD 6]).orders 1 0).max? =
      some 2 := by
  have h := C6_daily_serial exDBe 1 0 [exNOD 5, exNOD 6] (by decide)
    (by intro d hd; fin_cases hd <;> decide)
  refine ⟨by decide, ?_, h.2.1, ?_⟩
  · rw [h.1]
    decide
  · have := h.2.2.2.1 (by decide)
    simpa using this

/-- Claim C9 counterexample: a request whose items list is empty is not
rejected — the creation succeeds and persists an order with no line items
and total 0. -/
theorem C9_counterexample :
    (createOrderRun exDBe exReq9 10 0 true).2 =
      .ok (saveNewOrder exDBe 1 ("1234") ("cash") [] .pending 10 0).2 ∧
    (createOrderRun exDBe exReq9 10 0 true).1.orders.length = 1 ∧
    (saveNewOrder exDBe 1 ("1234") ("cash") [] .pending 10 0).2.items = [] ∧
    (saveNewOrder exDBe 1 ("1234") ("cash") [] .pending 10 0).2.total = 0 := by
  exact ⟨rfl, by decide, by decide, by decide⟩

/-- Claim C9 (amended): create_order rejects a request whose items value is
not a list; an empty items list is accepted and creates an order with no
line items and total 0; and every line item whose quantity does not coerce
to a positive integer is silently dropped, the order proceeding with the
remaining items. -/
theorem C9_items_tolerance (db : DB) (req : CreateRequest) (now t : Nat)
    (gOk : Bool) (store : Store) (ps : List Product) (r : ReqItem)
    (rest : List ReqItem)
    (hstore : findStore db.stores req.storeSlug = some store) :
    (req.items = none →
      createOrderRun db req now t gOk = (db, .error .malformedItems)) ∧
    (coerceQty r.quantity ≤ 0 →
      reserveItems ps (r :: rest) = reserveItems ps rest) ∧
    (req.items = some [] →
      validOrderData req.phoneTail req.paymentMethod = true →
      req.paymentMethod ≠ "linepay" →
      createOrderRun db req now t gOk =
        ((saveNewOrder db store.id req.phoneTail req.paymentMethod []
            .pending now t).1,
          .ok (saveNewOrder db store.id req.phoneTail req.paymentMethod []
            .pending now t).2) ∧
      (saveNewOrder db store.id req.phoneTail req.paymentMethod [] .pending
          now t).2.items = [] ∧
      (saveNewOrder db store.id req.phoneTail req.paymentMethod [] .pending
          now t).2.total = 0) := by
  refine ⟨?_, fun hq => reserveItems_skip ps r rest hq, ?_⟩
  · intro h1
    have hcr : createOrder db req now t gOk = .error .malformedItems := by
      simp only [createOrder, hstore, h1]
    simp only [createOrderRun, hcr]
  · intro h1 hv hnl
    have hres : reserveItems db.products [] =
        .ok (db.products, ([] : List LineItem)) := rfl
    have hcr : createOrder db req now t gOk =
        .ok (saveNewOrder db store.id req.phoneTail req.paymentMethod []
          .pending now t) := by
      simp only [createOrder, hstore, h1, hres]
      rw [if_pos hv, if_neg hnl]
    refine ⟨?_, rfl, rfl⟩
    simp only [createOrderRun, hcr]

/-- Claim C9 witness: an entry with a non-positive quantity is dropped
while the remaining item is reserved, and the empty-items request of the
counterexample is accepted under the amended statement's hypotheses. -/
theorem C9_items_tolerance_witness :
    findStore exDBe.stores ("main") = some exStore ∧
    reserveItems [exProd 4]
        [⟨some 1, .num 0⟩, ⟨some 1, .num 2⟩] =
      reserveItems [exProd 4] [⟨some 1, .num 2⟩] ∧
    createOrderRun exDBe exReq9 10 0 true =
      ((saveNewOrder exDBe exStore.id exReq9.phoneTail exReq9.paymentMethod
          [] .pending 10 0).1,
        .ok (saveNewOrder exDBe exStore.id exReq9.phoneTail
          exReq9.paymentMethod [] .pending 10 0).2) := by
  have h := C9_items_tolerance exDBe exReq9 10 0 true exStore [exProd 4]
    ⟨some 1, .num 0⟩ [⟨some 1, .num 2⟩] (by decide)
  exact ⟨by decide, h.2.1 (by decide),
    (h.2.2 rfl (by decide) (by decide)).1⟩

/-- Claim C10: order creation resolves line-item products by id alone with
no store check — an active, sufficiently stocked product of a different
store is reserved (its stock decremented) and its snapshot (name, price,
category) is written into the order created for the requested store. -/
theorem C10_cross_store_reservation (db : DB) (slug phone : String)
    (store : Store) (pid : Nat) (q : Int) (p : Product) (now t : Nat)
    (hstore : findStore db.stores slug = some store)
    (hp : findProduct db.products pid = some p)
    (hact : p.isActive = true) (hq : 0 < q) (hqs : q ≤ p.stock)
    (hcross : p.storeId ≠ store.id)
    (hphone : phone ≠ "" ∧ phone.length ≤ 10) :
    ∃ o db2,
      createOrderRun db
        { storeSlug := slug
          items := some [{ id := some pid, quantity := .num q }]
          phoneTail := phone
          paymentMethod := "cash" } now t true = (db2, .ok o) ∧
      o.storeId = store.id ∧
      o.items = [snapshotItem { p with stock := p.stock - q } q] ∧
      (snapshotItem { p with stock := p.stock - q } q).name = p.name ∧
      (snapshotItem { p with stock := p.stock - q } q).price = p.price ∧
      findProduct db2.products pid = some { p with stock := p.stock - q } ∧
      db2.orders = db.orders ++ [o] := by
  have hq0 : ¬coerceQty (⟨some pid, QtyVal.num q⟩ : ReqItem).quantity ≤ 0 := by
    show ¬q ≤ 0
    omega
  have hrows : ¬(condReserve db.products pid q).2 = 0 :=
    condReserve_rows_pos db.products pid q p hp hact hqs
  have hfp : findProduct (condReserve db.products pid q).1 pid =
      some { p with stock := p.stock - q } :=
    findProduct_condReserve_self db.products pid q p hp hact hqs
  have hres : reserveItems db.products [⟨some pid, QtyVal.num q⟩] =
      .ok ((condReserve db.products pid q).1,
        [snapshotItem { p with stock := p.stock - q } q]) := by
    rw [reserveItems_cons_some db.products ⟨some pid, QtyVal.num q⟩ [] pid
      hq0 rfl]
    rw [show coerceQty (⟨some pid, QtyVal.num q⟩ : ReqItem).quantity = q
      from rfl]
    rw [if_neg hrows, hfp]
    rfl
  have hvd : validOrderData phone ("cash") = true := by
    simp [validOrderData, hphone.1, hphone.2]
  have hcr : createOrder db
      { storeSlug := slug
        items := some [{ id := some pid, quantity := .num q }]
        phoneTail := phone
        paymentMethod := "cash" } now t true =
      .ok (saveNewOrder { db with products := (condReserve db.products pid q).1 }
        store.id phone ("cash")
        [snapshotItem { p with stock := p.stock - q } q] .pending now t) := by
    simp only [createOrder, hstore, hres]
    rw [if_pos hvd, if_neg (by decide : ¬("cash" : String) = "linepay")]
  refine ⟨(saveNewOrder
      { db with products := (condReserve db.products pid q).1 } store.id phone
      ("cash") [snapshotItem { p with stock := p.stock - q } q] .pending now
      t).2,
    (saveNewOrder
      { db with products := (condReserve db.products pid q).1 } store.id phone
      ("cash") [snapshotItem { p with stock := p.stock - q } q] .pending now
      t).1,
    ?_, rfl, rfl, rfl, rfl, hfp, rfl⟩
  simp only [createOrderRun, hcr]

/-- Claim C10 witness: a product of store 2 is reserved and snapshotted into
an order created for store 1. -/
theorem C10_cross_store_reservation_witness :
    findStore exDB10.stores ("main") = some exStore ∧
    findProduct exDB10.products 9 = some exProdB ∧
    exProdB.storeId ≠ exStore.id ∧
    (∃ o db2,
      createOrderRun exDB10
        { storeSlug := "main"
          items := some [{ id := some 9, quantity := .num 1 }]
          phoneTail := "1234"
          paymentMethod := "cash" } 10 0 true = (db2, .ok o) ∧
      o.storeId = exStore.id ∧
      o.items = [snapshotItem { exProdB with stock := exProdB.stock - 1 } 1] ∧
      (snapshotItem { exProdB with stock := exProdB.stock - 1 } 1).name =
        exProdB.name ∧
      (snapshotItem { exProdB with stock := exProdB.stock - 1 } 1).price =
        exProdB.price ∧
      findProduct db2.products 9 =
        some { exProdB with stock := exProdB.stock - 1 } ∧
      db2.orders = exDB10.orders ++ [o]) :=
  ⟨by decide, by decide, by decide,
    C10_cross_store_reservation exDB10 ("main") ("1234") exStore 9 1 exProdB
      10 0 (by decide) (by decide) (by decide) (by decide) (by decide)
      (by decide) ⟨by decide, by decide⟩⟩

end SelfDrawn
